import Mathlib

/-!
# Verification of the GitHub-KPI metrics aggregation pipeline

A shallow embedding of the metrics aggregation core of the repository
(`models/core.py`, `models/metrics.py`, `utils/metrics_calculator.py`,
`utils/review_metrics_processor.py`) together with theorems settling the
frozen claims about it.

Modelling conventions:
* Python `datetime` values are modelled as `Int` microseconds since the
  Unix epoch (naive datetimes at microsecond resolution, exactly the
  resolution of `datetime`).  `datetime.replace(hour=0, ...)` becomes
  flooring to a multiple of a day; `timedelta` arithmetic is plain `Int`
  arithmetic on microseconds.
* Python floats produced by the aggregators (`x / y`, `statistics.mean`)
  are modelled as exact rationals `ℚ`; `int(x)` is truncation toward
  zero, `Int.tdiv` on exact microsecond quantities.
* Counts that the dataclass validators force to be non-negative
  (`additions`, `deletions`, ...) are modelled as `Nat`.
* A dataclass whose `__post_init__` can actually reject values produced
  by an aggregator is modelled as a validating constructor returning
  `Except String _` (mirroring `raise ValueError`).
-/

/-- Microseconds per hour: `3600 s` at `10^6 µs/s` (`total_seconds()/3600`). -/
def usPerHour : Int := 3600000000

/-- Microseconds per day. -/
def usPerDay : Int := 86400000000

/-! ## Calendar arithmetic

`strftime('%Y-%m-%d')`, `strftime('%Y-%m')`, `.hour`, `.year` and
`isocalendar()[1]` of `datetime` are modelled by the standard civil
calendar conversion from days since epoch (proleptic Gregorian, the same
calendar `datetime` uses).  Keys that Python formats as strings are
modelled as the corresponding component tuples, which the format strings
encode injectively. -/

/-- Days since the Unix epoch of the day containing the instant (floor). -/
def daysFromEpoch (t : Int) : Int := t / usPerDay

/-- Hour of day (0..23) of the instant, i.e. `datetime.hour`. -/
def hourOf (t : Int) : Int := t % usPerDay / usPerHour

/-- Civil date `(year, month, day)` of a count of days since the Unix
epoch (Gregorian calendar, Hinnant's `civil_from_days`). -/
def civilFromDays (days : Int) : Int × Int × Int :=
  let z := days + 719468
  let era := z / 146097
  let doe := z - era * 146097
  let yoe := (doe - doe / 1460 + doe / 36524 - doe / 146096) / 365
  let y := yoe + era * 400
  let doy := doe - (365 * yoe + yoe / 4 - yoe / 100)
  let mp := (5 * doy + 2) / 153
  let d := doy - (153 * mp + 2) / 5 + 1
  let m := mp + (if mp < 10 then 3 else -9)
  (y + (if m ≤ 2 then 1 else 0), m, d)

/-- Days since the Unix epoch of a civil date (Hinnant's `days_from_civil`). -/
def daysFromCivil (y m d : Int) : Int :=
  let y := y - (if m ≤ 2 then 1 else 0)
  let era := y / 400
  let yoe := y - era * 400
  let doy := (153 * (m + (if 2 < m then -3 else 9)) + 2) / 5 + d - 1
  let doe := yoe * 365 + yoe / 4 - yoe / 100 + doy
  era * 146097 + doe - 719468

/-- Year component of `datetime`, i.e. `timestamp.year`. -/
def yearOf (t : Int) : Int := (civilFromDays (daysFromEpoch t)).1

/-- Days since epoch of the Monday starting ISO week 1 of `year`
(CPython's `_isoweek1monday`; day 0 = 1970-01-01 was a Thursday, so
`Monday=0` weekday of day `n` is `(n + 3) % 7`). -/
def isoweek1monday (year : Int) : Int :=
  let firstday := daysFromCivil year 1 1
  let firstweekday := (firstday + 3) % 7
  let week1monday := firstday - firstweekday
  if 3 < firstweekday then week1monday + 7 else week1monday

/-- ISO week number `isocalendar()[1]` of the instant (CPython's
`isocalendar` algorithm). -/
def isoWeekOf (t : Int) : Int :=
  let today := daysFromEpoch t
  let year := yearOf t
  let week := (today - isoweek1monday year) / 7
  if week < 0 then
    (today - isoweek1monday (year - 1)) / 7 + 1
  else if 52 ≤ week then
    if isoweek1monday (year + 1) ≤ today then 1 else week + 1
  else week + 1

/-! ## Core entity model (`models/core.py`) -/

/-- `Review` (`models/core.py`).  `state` is one of `APPROVED`,
`CHANGES_REQUESTED`, `COMMENTED` (enforced by `__post_init__`, carried
here as a plain string exactly as in the source). -/
structure Review where
  reviewer : String
  state : String
  submitted_at : Int
  body : Option String
deriving DecidableEq

/-- `PullRequestState` enumeration. -/
inductive PullRequestState where
  | OPEN
  | CLOSED
  | MERGED
deriving DecidableEq

/-- `.value` of the state enum member. -/
def PullRequestState.value : PullRequestState → String
  | .OPEN => "open"
  | .CLOSED => "closed"
  | .MERGED => "merged"

/-- `PullRequest` (`models/core.py`).  `additions`, `deletions` and
`commits` are validated non-negative by `__post_init__`, hence `Nat`. -/
structure PullRequest where
  number : Int
  title : String
  author : String
  created_at : Int
  state : PullRequestState
  merged_at : Option Int
  closed_at : Option Int
  additions : Nat
  deletions : Nat
  commits : Nat
  reviews : List Review
deriving DecidableEq

/-- `PullRequest.is_merged`: state is MERGED and `merged_at` is present. -/
def PullRequest.is_merged (pr : PullRequest) : Bool :=
  pr.state == .MERGED && pr.merged_at.isSome

/-- `PullRequest.time_to_merge`: hours between creation and merge,
`int(total_seconds()/3600)` (truncation toward zero), `None` when
`merged_at` is absent. -/
def PullRequest.time_to_merge (pr : PullRequest) : Option Int :=
  match pr.merged_at with
  | some m => some (Int.tdiv (m - pr.created_at) usPerHour)
  | none => none

/-- `IssueState` enumeration. -/
inductive IssueState where
  | OPEN
  | CLOSED
deriving DecidableEq

/-- `Issue` (`models/core.py`). -/
structure Issue where
  number : Int
  title : String
  author : String
  created_at : Int
  state : IssueState
  closed_at : Option Int
  assignee : Option String
  labels : List String
  body : Option String
deriving DecidableEq

/-- `Issue.is_closed`: state is CLOSED and `closed_at` is present. -/
def Issue.is_closed (i : Issue) : Bool :=
  i.state == .CLOSED && i.closed_at.isSome

/-- `Issue.time_to_close`: hours between creation and close,
`int(total_seconds()/3600)`, `None` when `closed_at` is absent. -/
def Issue.time_to_close (i : Issue) : Option Int :=
  match i.closed_at with
  | some c => some (Int.tdiv (c - i.created_at) usPerHour)
  | none => none

/-- `Commit` (`models/core.py`). -/
structure Commit where
  sha : String
  author : String
  timestamp : Int
  message : String
  additions : Nat
  deletions : Nat
  files_changed : Nat
deriving DecidableEq

/-! ## Metrics data model (`models/metrics.py`) -/

/-- `MetricPeriod` enumeration. -/
inductive MetricPeriod where
  | DAILY
  | WEEKLY
  | MONTHLY
  | QUARTERLY
deriving DecidableEq

/-- `VelocityPoint` (`models/metrics.py`).  Its `__post_init__` only
checks non-negativity of the counts, which `Nat` carries. -/
structure VelocityPoint where
  timestamp : Int
  commits : Nat
  additions : Nat
  deletions : Nat
  pull_requests : Nat
  issues_closed : Nat
deriving DecidableEq

/-- The four frequency tables built by `_calculate_commit_frequency`.
Python keys are the strings `'%Y-%m-%d'`, `'%Y-Www'`, `'%Y-%m'` and
`str(hour)`; they are modelled as the component tuples those format
strings encode. -/
structure CommitFrequency where
  daily : List ((Int × Int × Int) × Nat)
  weekly : List ((Int × Int) × Nat)
  monthly : List ((Int × Int) × Nat)
  hourly : List (Int × Nat)
deriving DecidableEq

/-- `CommitMetrics` (`models/metrics.py`).  Its `__post_init__` checks
(non-negative counts and averages) are unfailable for the values the
aggregator produces, all built from `Nat` data. -/
structure CommitMetrics where
  total_commits : Nat
  commit_frequency : CommitFrequency
  average_additions : ℚ
  average_deletions : ℚ
  average_files_changed : ℚ
  most_active_hours : List Int
  commit_message_length_avg : ℚ
deriving DecidableEq

/-- `PRMetrics` (`models/metrics.py`). -/
structure PRMetrics where
  total_prs : Nat
  merged_prs : Nat
  closed_prs : Nat
  open_prs : Nat
  average_time_to_merge : Option ℚ
  average_additions : ℚ
  average_deletions : ℚ
  average_commits_per_pr : ℚ
  merge_rate : ℚ
deriving DecidableEq

/-- `PRMetrics.__post_init__`: counts must be non-negative (carried by
`Nat`), sub-counts must sum to the total, and the merge rate must lie in
`[0, 100]`; offending values raise `ValueError`. -/
def mkPRMetrics (total_prs merged_prs closed_prs open_prs : Nat)
    (average_time_to_merge : Option ℚ)
    (average_additions average_deletions average_commits_per_pr merge_rate : ℚ) :
    Except String PRMetrics :=
  if total_prs ≠ merged_prs + closed_prs + open_prs then
    .error "PR counts must sum to total"
  else if ¬ (0 ≤ merge_rate ∧ merge_rate ≤ 100) then
    .error "Merge rate must be between 0 and 100"
  else
    .ok ⟨total_prs, merged_prs, closed_prs, open_prs, average_time_to_merge,
      average_additions, average_deletions, average_commits_per_pr, merge_rate⟩

/-- `ReviewMetrics` (`models/metrics.py`). -/
structure ReviewMetrics where
  total_reviews_given : Nat
  total_reviews_received : Nat
  average_review_time : Option ℚ
  approval_rate : ℚ
  change_request_rate : ℚ
  review_participation_rate : ℚ
deriving DecidableEq

/-- `ReviewMetrics.__post_init__`: counts non-negative (carried by
`Nat`) and all three rates in `[0, 100]`. -/
def mkReviewMetrics (total_reviews_given total_reviews_received : Nat)
    (average_review_time : Option ℚ)
    (approval_rate change_request_rate review_participation_rate : ℚ) :
    Except String ReviewMetrics :=
  if ¬ (0 ≤ approval_rate ∧ approval_rate ≤ 100 ∧
        0 ≤ change_request_rate ∧ change_request_rate ≤ 100 ∧
        0 ≤ review_participation_rate ∧ review_participation_rate ≤ 100) then
    .error "All rates must be between 0 and 100"
  else
    .ok ⟨total_reviews_given, total_reviews_received, average_review_time,
      approval_rate, change_request_rate, review_participation_rate⟩

/-- `IssueMetrics` (`models/metrics.py`). -/
structure IssueMetrics where
  total_issues : Nat
  closed_issues : Nat
  open_issues : Nat
  average_time_to_close : Option ℚ
  resolution_rate : ℚ
  issues_created : Nat
  issues_assigned : Nat
deriving DecidableEq

/-- `IssueMetrics.__post_init__`: counts non-negative (carried by
`Nat`), closed + open must equal total, resolution rate in `[0, 100]`. -/
def mkIssueMetrics (total_issues closed_issues open_issues : Nat)
    (average_time_to_close : Option ℚ) (resolution_rate : ℚ)
    (issues_created issues_assigned : Nat) : Except String IssueMetrics :=
  if total_issues ≠ closed_issues + open_issues then
    .error "Issue counts must sum to total"
  else if ¬ (0 ≤ resolution_rate ∧ resolution_rate ≤ 100) then
    .error "Resolution rate must be between 0 and 100"
  else
    .ok ⟨total_issues, closed_issues, open_issues, average_time_to_close,
      resolution_rate, issues_created, issues_assigned⟩

/-- `ProductivityMetrics` (`models/metrics.py`). -/
structure ProductivityMetrics where
  period_start : Int
  period_end : Int
  commit_metrics : CommitMetrics
  pr_metrics : PRMetrics
  review_metrics : ReviewMetrics
  issue_metrics : IssueMetrics
  velocity_trends : List VelocityPoint
  time_distribution : List (String × ℚ)
deriving DecidableEq

/-- `ProductivityMetrics.__post_init__`: the period end must be strictly
after the period start. -/
def mkProductivityMetrics (period_start period_end : Int)
    (commit_metrics : CommitMetrics) (pr_metrics : PRMetrics)
    (review_metrics : ReviewMetrics) (issue_metrics : IssueMetrics)
    (velocity_trends : List VelocityPoint)
    (time_distribution : List (String × ℚ)) : Except String ProductivityMetrics :=
  if period_end ≤ period_start then
    .error "Period end must be after period start"
  else
    .ok ⟨period_start, period_end, commit_metrics, pr_metrics, review_metrics,
      issue_metrics, velocity_trends, time_distribution⟩

/-- `ProductivityMetrics.period_days`: `(period_end - period_start).days`,
`timedelta.days` being the floor of the span in whole days. -/
def ProductivityMetrics.period_days (p : ProductivityMetrics) : Int :=
  (p.period_end - p.period_start) / usPerDay

/-- `ProductivityMetrics.daily_commit_average`: commits per day over the
period, `0.0` when the period spans zero whole days. -/
def ProductivityMetrics.daily_commit_average (p : ProductivityMetrics) : ℚ :=
  if p.period_days = 0 then 0
  else (p.commit_metrics.total_commits : ℚ) / (p.period_days : ℚ)

/-! ## List helpers for the Python built-ins used by the aggregators -/

/-- Python `min` over a non-empty list (`min(all_dates)`); 0 on `[]`,
which the callers never pass. -/
def listMinI : List Int → Int
  | [] => 0
  | [x] => x
  | x :: xs => min x (listMinI xs)

/-- Python `max` over a non-empty list. -/
def listMaxI : List Int → Int
  | [] => 0
  | [x] => x
  | x :: xs => max x (listMaxI xs)

/-- `statistics.mean` of a list of ints, as an exact rational. -/
def listMeanI (l : List Int) : ℚ := (l.sum : ℚ) / (l.length : ℚ)

/-- `statistics.mean` of a list of (float, modelled rational) values. -/
def listMeanQ (l : List ℚ) : ℚ := l.sum / (l.length : ℚ)

/-- The distinct elements of a list in order of first occurrence — the
key order of a Python `dict` / `Counter` filled by iteration. -/
def firstKeys {K : Type} [DecidableEq K] : List K → List K
  | [] => []
  | k :: ks => k :: (firstKeys ks).filter (fun a => a ≠ k)

/-- The final contents of a `defaultdict(int)` / `Counter` built by one
pass of `+= 1` over `keys`: each distinct key, in first-occurrence
order, paired with its multiplicity. -/
def groupCounts {K : Type} [DecidableEq K] (keys : List K) : List (K × Nat) :=
  (firstKeys keys).map (fun k => (k, keys.count k))

/-! ## `MetricsCalculator` (`utils/metrics_calculator.py`) -/

/-- `MetricsCalculator._calculate_commit_frequency`: one pass over the
commits incrementing four keyed counters (daily / ISO-weekly / monthly /
hourly).  Note the weekly key pairs `timestamp.year` (the calendar year,
as in the source's f-string) with the ISO week number. -/
def calculateCommitFrequency (commits : List Commit) : CommitFrequency where
  daily := groupCounts (commits.map (fun c => civilFromDays (daysFromEpoch c.timestamp)))
  weekly := groupCounts (commits.map (fun c => (yearOf c.timestamp, isoWeekOf c.timestamp)))
  monthly := groupCounts (commits.map (fun c =>
    ((civilFromDays (daysFromEpoch c.timestamp)).1, (civilFromDays (daysFromEpoch c.timestamp)).2.1)))
  hourly := groupCounts (commits.map (fun c => hourOf c.timestamp))

/-- The generator expression `commit.timestamp.hour for commit in commits`
feeding the hour counter. -/
def commitHours (commits : List Commit) : List Int :=
  commits.map (fun c => hourOf c.timestamp)

/-- `MetricsCalculator._find_most_active_hours`: `Counter.most_common(top_n)`
— a stable descending sort of the hour counter by count (Python's
`heapq.nlargest` is specified as `sorted(..., reverse=True)[:n]`, a
stable selection), keeping the hours. -/
def findMostActiveHours (commits : List Commit) (top_n : Nat) : List Int :=
  let hour_counts := groupCounts (commitHours commits)
  let most_common := (hour_counts.mergeSort (fun a b => decide (b.2 ≤ a.2))).take top_n
  most_common.map (fun p => p.1)

/-- `MetricsCalculator.calculate_commit_metrics`.  The `CommitMetrics`
validator (non-negativity) cannot fire on these values, so the record is
built directly. -/
def calculate_commit_metrics (commits : List Commit) : CommitMetrics :=
  if commits.isEmpty then
    ⟨0, ⟨[], [], [], []⟩, 0, 0, 0, [], 0⟩
  else
    let total_commits := commits.length
    { total_commits := total_commits
      commit_frequency := calculateCommitFrequency commits
      average_additions := ((commits.map (fun c => c.additions)).sum : ℚ) / (total_commits : ℚ)
      average_deletions := ((commits.map (fun c => c.deletions)).sum : ℚ) / (total_commits : ℚ)
      average_files_changed := ((commits.map (fun c => c.files_changed)).sum : ℚ) / (total_commits : ℚ)
      most_active_hours := findMostActiveHours commits 3
      commit_message_length_avg := ((commits.map (fun c => c.message.length)).sum : ℚ) / (total_commits : ℚ) }

/-- `MetricsCalculator.calculate_pr_metrics`. -/
def calculate_pr_metrics (pull_requests : List PullRequest) : Except String PRMetrics :=
  if pull_requests.isEmpty then
    mkPRMetrics 0 0 0 0 none 0 0 0 0
  else
    let total_prs := pull_requests.length
    let merged_prs := (pull_requests.filter (fun pr => pr.is_merged)).length
    let closed_prs := (pull_requests.filter (fun pr =>
      pr.state.value == "closed" && !pr.is_merged)).length
    let open_prs := (pull_requests.filter (fun pr => pr.state.value == "open")).length
    let merge_rate : ℚ :=
      if 0 < total_prs then (merged_prs : ℚ) / (total_prs : ℚ) * 100 else 0
    let merge_times := pull_requests.filterMap (fun pr => pr.time_to_merge)
    let average_time_to_merge :=
      if merge_times.isEmpty then none else some (listMeanI merge_times)
    mkPRMetrics total_prs merged_prs closed_prs open_prs average_time_to_merge
      (((pull_requests.map (fun pr => pr.additions)).sum : ℚ) / (total_prs : ℚ))
      (((pull_requests.map (fun pr => pr.deletions)).sum : ℚ) / (total_prs : ℚ))
      (((pull_requests.map (fun pr => pr.commits)).sum : ℚ) / (total_prs : ℚ))
      merge_rate

/-- The bucket width of each `MetricPeriod`
(`timedelta(days=1|weeks=1|days=30|days=90)` in microseconds). -/
def MetricPeriod.delta : MetricPeriod → Int
  | .DAILY => usPerDay
  | .WEEKLY => 7 * usPerDay
  | .MONTHLY => 30 * usPerDay
  | .QUARTERLY => 90 * usPerDay

/-- `MetricsCalculator._generate_time_buckets`: starting at `current`,
emit `(current, min (current + delta - 1µs) end_date)` and advance by
`delta` while `current ≤ end_date`.  The `0 < delta` conjunct (true of
every `MetricPeriod.delta`) is what makes the loop terminate. -/
def generateTimeBuckets (current end_date delta : Int) : List (Int × Int) :=
  if _h : current ≤ end_date ∧ 0 < delta then
    (current, min (current + delta - 1) end_date) ::
      generateTimeBuckets (current + delta) end_date delta
  else []
termination_by (end_date + 1 - current).toNat
decreasing_by omega

/-- `MetricsCalculator.generate_time_series_data`. -/
def generate_time_series_data (commits : List Commit)
    (pull_requests : List PullRequest) (issues : List Issue)
    (period : MetricPeriod) : List VelocityPoint :=
  if commits.isEmpty && pull_requests.isEmpty && issues.isEmpty then []
  else
    let all_dates := commits.map (fun c => c.timestamp) ++
      pull_requests.map (fun pr => pr.created_at) ++
      issues.map (fun i => i.created_at)
    if all_dates.isEmpty then []
    else
      let start_date := listMinI all_dates / usPerDay * usPerDay
      let end_date := listMaxI all_dates / usPerDay * usPerDay + (usPerDay - 1)
      let time_buckets := generateTimeBuckets start_date end_date period.delta
      time_buckets.map (fun b =>
        let bucket_commits := commits.filter (fun c =>
          decide (b.1 ≤ c.timestamp ∧ c.timestamp ≤ b.2))
        { timestamp := b.1
          commits := bucket_commits.length
          additions := (bucket_commits.map (fun c => c.additions)).sum
          deletions := (bucket_commits.map (fun c => c.deletions)).sum
          pull_requests := (pull_requests.filter (fun pr =>
            decide (b.1 ≤ pr.created_at ∧ pr.created_at ≤ b.2))).length
          issues_closed := (issues.filter (fun i =>
            match i.closed_at with
            | some c => decide (b.1 ≤ c ∧ c ≤ b.2)
            | none => false)).length })

/-! ## `ReviewMetricsProcessor` (`utils/review_metrics_processor.py`) -/

/-- `ReviewMetricsProcessor._calculate_review_response_times`: hours from
PR creation to each review on it, over every PR and every review
(`total_seconds() / 3600`, no truncation). -/
def calculateReviewResponseTimes (pull_requests : List PullRequest) : List ℚ :=
  pull_requests.flatMap (fun pr =>
    pr.reviews.map (fun rv => ((rv.submitted_at - pr.created_at : Int) : ℚ) / (usPerHour : ℚ)))

/-- `ReviewMetricsProcessor._calculate_approval_rate`. -/
def calculateApprovalRate (reviews : List Review) : ℚ :=
  if reviews.isEmpty then 0
  else ((reviews.filter (fun r => r.state == "APPROVED")).length : ℚ) / (reviews.length : ℚ) * 100

/-- `ReviewMetricsProcessor._calculate_change_request_rate`. -/
def calculateChangeRequestRate (reviews : List Review) : ℚ :=
  if reviews.isEmpty then 0
  else ((reviews.filter (fun r => r.state == "CHANGES_REQUESTED")).length : ℚ) / (reviews.length : ℚ) * 100

/-- `ReviewMetricsProcessor._calculate_participation_rate`. -/
def calculateParticipationRate (pull_requests : List PullRequest)
    (target_author : Option String) : ℚ :=
  if pull_requests.isEmpty then 0
  else
    match target_author with
    | some t =>
      let reviewable_prs := pull_requests.filter (fun pr => pr.author ≠ t)
      if reviewable_prs.isEmpty then 0
      else
        let participated_prs := (reviewable_prs.filter (fun pr =>
          pr.reviews.any (fun rv => rv.reviewer == t))).length
        (participated_prs : ℚ) / (reviewable_prs.length : ℚ) * 100
    | none =>
      ((pull_requests.filter (fun pr => !pr.reviews.isEmpty)).length : ℚ) /
        (pull_requests.length : ℚ) * 100

/-- `ReviewMetricsProcessor.calculate_review_metrics`.  With a target
author the given/received pools are the reviews written by the target and
the reviews sitting on the target's own PRs; without one both pools are
all reviews.  `average_review_time` is computed from
`_calculate_review_response_times(pull_requests)` on the whole input. -/
def calculate_review_metrics (pull_requests : List PullRequest)
    (target_author : Option String) : Except String ReviewMetrics :=
  if pull_requests.isEmpty then
    mkReviewMetrics 0 0 none 0 0 0
  else
    let all_reviews := pull_requests.flatMap (fun pr => pr.reviews)
    let reviews_given :=
      match target_author with
      | some t => pull_requests.flatMap (fun pr =>
          pr.reviews.filter (fun rv => rv.reviewer == t))
      | none => all_reviews
    let reviews_received :=
      match target_author with
      | some t => pull_requests.flatMap (fun pr =>
          if pr.author == t then pr.reviews else [])
      | none => all_reviews
    let review_times := calculateReviewResponseTimes pull_requests
    let average_review_time :=
      if review_times.isEmpty then none else some (listMeanQ review_times)
    mkReviewMetrics reviews_given.length reviews_received.length
      average_review_time
      (calculateApprovalRate reviews_given)
      (calculateChangeRequestRate reviews_given)
      (calculateParticipationRate pull_requests target_author)

/-- `ReviewMetricsProcessor.calculate_issue_metrics`. -/
def calculate_issue_metrics (issues : List Issue)
    (target_author : Option String) : Except String IssueMetrics :=
  if issues.isEmpty then
    mkIssueMetrics 0 0 0 none 0 0 0
  else
    let author_issues : List Issue :=
      match target_author with
      | some t => issues.filter (fun i => i.author == t)
      | none => issues
    let assigned_issues : List Issue :=
      match target_author with
      | some t => issues.filter (fun i => i.assignee == some t)
      | none => issues.filter (fun i => i.assignee.isSome)
    let total_issues := issues.length
    let closed_issues := (issues.filter (fun i => i.is_closed)).length
    let open_issues := total_issues - closed_issues
    let close_times := issues.filterMap (fun i => i.time_to_close)
    let average_time_to_close :=
      if close_times.isEmpty then none else some (listMeanI close_times)
    let resolution_rate : ℚ :=
      if 0 < total_issues then (closed_issues : ℚ) / (total_issues : ℚ) * 100 else 0
    mkIssueMetrics total_issues closed_issues open_issues average_time_to_close
      resolution_rate author_issues.length assigned_issues.length

/-! ## Spec-side definitions

These follow the *spec's words* (not the code) and exist only to be
compared against the code's definitions in refinement statements. -/

/-- Spec wording for claim C3: "the arithmetic mean of time_to_merge
taken over the merged PRs only (those with is_merged true)". -/
def specMeanTimeToMergeMergedOnly (pull_requests : List PullRequest) : Option ℚ :=
  let times := (pull_requests.filter (fun pr => pr.is_merged)).filterMap
    (fun pr => pr.time_to_merge)
  if times.isEmpty then none else some (listMeanI times)

/-- Amended wording for claim C3: the mean of `time_to_merge` over the
PRs with a known merge time (`merged_at` present), whatever their state. -/
def specMeanTimeToMergeKnown (pull_requests : List PullRequest) : Option ℚ :=
  let times := (pull_requests.filter (fun pr => pr.merged_at.isSome)).filterMap
    (fun pr => pr.time_to_merge)
  if times.isEmpty then none else some (listMeanI times)

/-- Spec wording for claim C5: the mean, in hours, of
`review.submitted_at - pr.created_at` over the relevant review pool of
the target author — the reviews given by the target (as reviewer) or
received by the target (sitting on the target's own PRs); with no target,
all reviews. -/
def specMeanReviewTimePool (pull_requests : List PullRequest)
    (target_author : Option String) : Option ℚ :=
  let pool : List ℚ := pull_requests.flatMap (fun pr =>
    (pr.reviews.filter (fun rv =>
      match target_author with
      | some t => rv.reviewer == t || pr.author == t
      | none => true)).map
      (fun rv => ((rv.submitted_at - pr.created_at : Int) : ℚ) / (usPerHour : ℚ)))
  if pool.isEmpty then none else some (listMeanQ pool)

/-- Spec wording for claim C7: "the arithmetic mean of time_to_close
over the closed issues with a known close time". -/
def specMeanTimeToCloseClosedOnly (issues : List Issue) : Option ℚ :=
  let times := (issues.filter (fun i => i.is_closed)).filterMap
    (fun i => i.time_to_close)
  if times.isEmpty then none else some (listMeanI times)

/-- Amended wording for claim C7: the mean of `time_to_close` over the
issues with a known close time (`closed_at` present), whatever their
state. -/
def specMeanTimeToCloseKnown (issues : List Issue) : Option ℚ :=
  let times := (issues.filter (fun i => i.closed_at.isSome)).filterMap
    (fun i => i.time_to_close)
  if times.isEmpty then none else some (listMeanI times)

/-! ## Helper lemmas -/

theorem listMinI_le {l : List Int} {a : Int} (h : a ∈ l) : listMinI l ≤ a := by
  induction l with
  | nil => cases h
  | cons x xs ih =>
    cases xs with
    | nil => simp at h; simp [listMinI, h]
    | cons y ys =>
      rw [show listMinI (x :: y :: ys) = min x (listMinI (y :: ys)) from rfl]
      rcases List.mem_cons.mp h with h1 | h2
      · subst h1; exact min_le_left _ _
      · exact le_trans (min_le_right _ _) (ih h2)

theorem le_listMaxI {l : List Int} {a : Int} (h : a ∈ l) : a ≤ listMaxI l := by
  induction l with
  | nil => cases h
  | cons x xs ih =>
    cases xs with
    | nil => simp at h; simp [listMaxI, h]
    | cons y ys =>
      rw [show listMaxI (x :: y :: ys) = max x (listMaxI (y :: ys)) from rfl]
      rcases List.mem_cons.mp h with h1 | h2
      · subst h1; exact le_max_left _ _
      · exact le_trans (ih h2) (le_max_right _ _)

/-- A percentage `a / b * 100` of a part `a` of a whole `b` lies in `[0, 100]`. -/
theorem pct_bounds {a b : Nat} (hab : a ≤ b) (hb : 0 < b) :
    0 ≤ (a : ℚ) / (b : ℚ) * 100 ∧ (a : ℚ) / (b : ℚ) * 100 ≤ 100 := by
  have hbq : (0 : ℚ) < (b : ℚ) := by exact_mod_cast hb
  have habq : (a : ℚ) ≤ (b : ℚ) := by exact_mod_cast hab
  constructor
  · positivity
  · have h1 : (a : ℚ) / (b : ℚ) ≤ 1 := (div_le_one hbq).mpr habq
    nlinarith

/-- `Int.tdiv` by a positive divisor is truncation toward zero of the
exact rational quotient. -/
theorem tdiv_trunc (a b : Int) (hb : 0 < b) :
    (0 ≤ (a : ℚ) / (b : ℚ) → a.tdiv b = ⌊(a : ℚ) / (b : ℚ)⌋) ∧
    ((a : ℚ) / (b : ℚ) < 0 → a.tdiv b = ⌈(a : ℚ) / (b : ℚ)⌉) := by
  have hbq : (0 : ℚ) < (b : ℚ) := by exact_mod_cast hb
  have hfloor : ∀ n : Int, 0 ≤ n → n.tdiv b = ⌊(n : ℚ) / (b : ℚ)⌋ := by
    intro n hn
    have hbn : ((b.toNat : ℕ) : Int) = b := Int.toNat_of_nonneg hb.le
    have h1 := Rat.floor_intCast_div_natCast n b.toNat
    rw [Int.tdiv_eq_ediv hn hb.le]
    have hcast : ((b.toNat : ℕ) : ℚ) = (b : ℚ) := by exact_mod_cast congrArg (Int.cast : Int → ℚ) hbn
    rw [hcast] at h1
    rw [h1, hbn]
  constructor
  · intro hq
    have ha : 0 ≤ a := by
      by_contra hneg
      push_neg at hneg
      have : (a : ℚ) / (b : ℚ) < 0 :=
        div_neg_of_neg_of_pos (by exact_mod_cast hneg) hbq
      linarith
    exact hfloor a ha
  · intro hq
    have ha : a < 0 := by
      by_contra hpos
      push_neg at hpos
      have : 0 ≤ (a : ℚ) / (b : ℚ) :=
        div_nonneg (by exact_mod_cast hpos) hbq.le
      linarith
    have hrec : a.tdiv b = -((-a).tdiv b) := by rw [Int.neg_tdiv, neg_neg]
    have h2 : (-a).tdiv b = ⌊((-a : Int) : ℚ) / (b : ℚ)⌋ := hfloor (-a) (by omega)
    rw [hrec, h2]
    have hc : ((-a : Int) : ℚ) / (b : ℚ) = -((a : ℚ) / (b : ℚ)) := by
      push_cast; ring
    rw [hc, Int.floor_neg, neg_neg]

theorem mem_firstKeys {K : Type} [DecidableEq K] {a : K} {l : List K} :
    a ∈ firstKeys l ↔ a ∈ l := by
  induction l with
  | nil => simp [firstKeys]
  | cons k ks ih =>
    simp only [firstKeys, List.mem_cons, List.mem_filter]
    by_cases hak : a = k
    · simp [hak]
    · simp [hak, ih]

theorem firstKeys_nodup {K : Type} [DecidableEq K] (l : List K) :
    (firstKeys l).Nodup := by
  induction l with
  | nil => simp [firstKeys]
  | cons k ks ih =>
    refine List.Nodup.cons ?_ (ih.filter _)
    intro hmem
    have := List.of_mem_filter hmem
    simp at this

theorem firstKeys_perm_dedup {K : Type} [DecidableEq K] (l : List K) :
    List.Perm (firstKeys l) l.dedup :=
  (List.perm_ext_iff_of_nodup (firstKeys_nodup l) l.nodup_dedup).mpr
    (fun a => by rw [mem_firstKeys, List.mem_dedup])

/-- The values of a counter built over `keys` sum to `keys.length`:
every key occurrence lands in exactly one bucket of the counter. -/
theorem groupCounts_sum {K : Type} [DecidableEq K] (keys : List K) :
    ((groupCounts keys).map (fun p => p.2)).sum = keys.length := by
  unfold groupCounts
  rw [List.map_map]
  have hperm : List.Perm ((firstKeys keys).map (fun k => keys.count k))
      (keys.dedup.map (fun k => keys.count k)) :=
    (firstKeys_perm_dedup keys).map _
  have h1 : ((firstKeys keys).map ((fun p => p.2) ∘ (fun k => (k, keys.count k)))).sum
      = ((firstKeys keys).map (fun k => keys.count k)).sum := rfl
  rw [h1, hperm.sum_eq, List.sum_map_count_dedup_eq_length keys]

/-- Pointwise sums distribute over a mapped sum. -/
theorem sum_map_add {B : Type} (l : List B) (f g : B → Nat) :
    (l.map (fun b => f b + g b)).sum = (l.map f).sum + (l.map g).sum := by
  induction l with
  | nil => simp
  | cons b l ih => simp only [List.map_cons, List.sum_cons, ih]; omega

/-- Summing an indicator over a list counts the satisfying elements. -/
theorem sum_map_ite {B : Type} (l : List B) (p : B → Bool) :
    (l.map (fun b => if p b then 1 else 0)).sum = l.countP p := by
  induction l with
  | nil => simp
  | cons b l ih => simp only [List.map_cons, List.sum_cons, ih, List.countP_cons]; omega

/-- Exchanging a double count: counting, for every `b`, the `a`s related
to it, sums to counting, for every `a`, the `b`s related to it. -/
theorem sum_countP_swap {A B : Type} (as : List A) (bs : List B) (r : A → B → Bool) :
    (bs.map (fun b => as.countP (fun a => r a b))).sum =
    (as.map (fun a => bs.countP (fun b => r a b))).sum := by
  induction as with
  | nil => simp [List.countP_nil]
  | cons a as ih =>
    have hL : (bs.map (fun b => (a :: as).countP (fun x => r x b))).sum =
        (bs.map (fun b => as.countP (fun x => r x b) + (if r a b then 1 else 0))).sum := by
      apply congrArg
      apply List.map_congr_left
      intro b _
      rw [List.countP_cons]
    rw [hL, sum_map_add bs (fun b => as.countP (fun x => r x b)) (fun b => if r a b then 1 else 0),
      sum_map_ite bs (fun b => r a b), ih]
    simp only [List.map_cons, List.sum_cons]
    omega

/-- No bucket generated from `current` on can contain an instant before
`current`. -/
theorem buckets_countP_zero (current end_date delta t : Int) (ht : t < current) :
    (generateTimeBuckets current end_date delta).countP
      (fun b => decide (b.1 ≤ t ∧ t ≤ b.2)) = 0 := by
  rw [generateTimeBuckets]
  split
  · rename_i hcond
    rw [List.countP_cons]
    have h0 : (decide (current ≤ t ∧ t ≤ min (current + delta - 1) end_date)) = false := by
      simp only [decide_eq_false_iff_not]
      omega
    rw [h0, buckets_countP_zero (current + delta) end_date delta t (by omega)]
    simp
  · simp
termination_by (end_date + 1 - current).toNat
decreasing_by omega

/-- An instant inside the covered span `[current, end_date]` falls in
exactly one generated bucket: consecutive buckets are contiguous at
microsecond resolution and tile the span. -/
theorem buckets_countP_one (current end_date delta t : Int) (hd : 0 < delta)
    (h1 : current ≤ t) (h2 : t ≤ end_date) :
    (generateTimeBuckets current end_date delta).countP
      (fun b => decide (b.1 ≤ t ∧ t ≤ b.2)) = 1 := by
  rw [generateTimeBuckets]
  split
  · rename_i hcond
    rw [List.countP_cons]
    by_cases hin : t ≤ min (current + delta - 1) end_date
    · have hhead : (decide (current ≤ t ∧ t ≤ min (current + delta - 1) end_date)) = true := by
        simp only [decide_eq_true_eq]
        exact ⟨h1, hin⟩
      rw [hhead, buckets_countP_zero (current + delta) end_date delta t (by omega)]
      simp
    · have hhead : (decide (current ≤ t ∧ t ≤ min (current + delta - 1) end_date)) = false := by
        simp only [decide_eq_false_iff_not]
        omega
      rw [hhead, buckets_countP_one (current + delta) end_date delta t hd (by omega) h2]
      simp
  · rename_i hcond
    exact absurd ⟨le_trans h1 h2, hd⟩ hcond
termination_by (end_date + 1 - current).toNat
decreasing_by omega

/-- Flooring to the start of the day and bumping to the last microsecond
of the day bracket the instant. -/
theorem day_bracket (t : Int) :
    t / usPerDay * usPerDay ≤ t ∧ t ≤ t / usPerDay * usPerDay + (usPerDay - 1) := by
  have h1 := Int.emod_nonneg t (show (usPerDay : Int) ≠ 0 by norm_num [usPerDay])
  have h2 := Int.emod_lt_of_pos t (show (0 : Int) < usPerDay by norm_num [usPerDay])
  have h3 := Int.ediv_add_emod t usPerDay
  simp only [usPerDay] at h1 h2 h3 ⊢
  omega

/-- Every pull request falls in exactly one of the three buckets counted
by `calculate_pr_metrics`, provided no PR is in state MERGED without a
merge timestamp. -/
theorem pr_state_partition (prs : List PullRequest)
    (h : ∀ pr ∈ prs, pr.state = .MERGED → pr.merged_at.isSome) :
    prs.countP (fun pr => pr.is_merged) +
    prs.countP (fun pr => pr.state.value == "closed" && !pr.is_merged) +
    prs.countP (fun pr => pr.state.value == "open") = prs.length := by
  induction prs with
  | nil => simp
  | cons pr t ih =>
    have hpr := h pr (List.mem_cons_self pr t)
    have ht : ∀ q ∈ t, q.state = .MERGED → q.merged_at.isSome :=
      fun q hq => h q (List.mem_cons_of_mem pr hq)
    have hsum := ih ht
    simp only [List.countP_cons, List.length_cons]
    cases hs : pr.state
    case OPEN =>
      have b1 : pr.is_merged = false := by simp [PullRequest.is_merged, hs]
      simp only [b1,
        show (PullRequestState.OPEN.value == "closed" && !false) = false by
          simp [PullRequestState.value],
        show (PullRequestState.OPEN.value == "open") = true by
          simp [PullRequestState.value]]
      simp
      omega
    case CLOSED =>
      have b1 : pr.is_merged = false := by simp [PullRequest.is_merged, hs]
      simp only [b1,
        show (PullRequestState.CLOSED.value == "closed" && !false) = true by
          simp [PullRequestState.value],
        show (PullRequestState.CLOSED.value == "open") = false by
          simp [PullRequestState.value]]
      simp
      omega
    case MERGED =>
      cases hm : pr.merged_at with
      | none => simp [hs, hm] at hpr
      | some m =>
        have b1 : pr.is_merged = true := by simp [PullRequest.is_merged, hs, hm]
        simp only [b1,
          show (PullRequestState.MERGED.value == "closed" && !true) = false by
            simp [PullRequestState.value],
          show (PullRequestState.MERGED.value == "open") = false by
            simp [PullRequestState.value]]
        simp
        omega

theorem time_to_merge_none_iff (pr : PullRequest) :
    pr.time_to_merge = none ↔ pr.merged_at = none := by
  cases hm : pr.merged_at <;> simp [PullRequest.time_to_merge, hm]

theorem time_to_close_none_iff (i : Issue) :
    i.time_to_close = none ↔ i.closed_at = none := by
  cases hm : i.closed_at <;> simp [Issue.time_to_close, hm]

/-- Merge times can be collected after first keeping only the PRs that
have a `merged_at` at all: the others contribute `None`. -/
theorem filterMap_ttm_filter (prs : List PullRequest) :
    prs.filterMap (fun pr => pr.time_to_merge) =
    (prs.filter (fun pr => pr.merged_at.isSome)).filterMap (fun pr => pr.time_to_merge) := by
  induction prs with
  | nil => rfl
  | cons pr t ih =>
    cases hm : pr.merged_at with
    | none =>
      have h1 : pr.time_to_merge = none := by simp [PullRequest.time_to_merge, hm]
      simp [List.filterMap_cons, List.filter_cons, h1, hm, ih]
    | some m =>
      have h1 : pr.time_to_merge = some (Int.tdiv (m - pr.created_at) usPerHour) := by
        simp [PullRequest.time_to_merge, hm]
      simp [List.filterMap_cons, List.filter_cons, h1, hm, ih]

/-- Close times can be collected after first keeping only the issues
that have a `closed_at` at all. -/
theorem filterMap_ttc_filter (issues : List Issue) :
    issues.filterMap (fun i => i.time_to_close) =
    (issues.filter (fun i => i.closed_at.isSome)).filterMap (fun i => i.time_to_close) := by
  induction issues with
  | nil => rfl
  | cons i t ih =>
    cases hm : i.closed_at with
    | none =>
      have h1 : i.time_to_close = none := by simp [Issue.time_to_close, hm]
      simp [List.filterMap_cons, List.filter_cons, h1, hm, ih]
    | some m =>
      have h1 : i.time_to_close = some (Int.tdiv (m - i.created_at) usPerHour) := by
        simp [Issue.time_to_close, hm]
      simp [List.filterMap_cons, List.filter_cons, h1, hm, ih]

/-! ## Claim C9 -/

/-- **C9**: constructing a `ProductivityMetrics` raises exactly when
`period_end` is not strictly after `period_start`; on success the derived
`daily_commit_average` is `total_commits / period_days` (with the `0.0`
convention at `period_days = 0` agreeing with rational division by zero). -/
theorem c9_period_validation_and_daily_average
    (ps pe : Int) (cm : CommitMetrics) (pm : PRMetrics) (rm : ReviewMetrics)
    (im : IssueMetrics) (vt : List VelocityPoint) (td : List (String × ℚ)) :
    ((∃ p, mkProductivityMetrics ps pe cm pm rm im vt td = .ok p) ↔ ps < pe) ∧
    (∀ p, mkProductivityMetrics ps pe cm pm rm im vt td = .ok p →
      p.daily_commit_average = (p.commit_metrics.total_commits : ℚ) / (p.period_days : ℚ)) := by
  unfold mkProductivityMetrics
  split
  · rename_i hle
    constructor
    · constructor
      · rintro ⟨p, hp⟩; cases hp
      · intro hlt; omega
    · intro p hp; cases hp
  · rename_i hgt
    constructor
    · constructor
      · intro _; omega
      · intro _; exact ⟨_, rfl⟩
    · intro p hp
      cases hp
      unfold ProductivityMetrics.daily_commit_average
      split
      · rename_i hz
        rw [hz]
        norm_num
      · rfl

/-- Empty-data metric records used by concrete witnesses. -/
def cmFour : CommitMetrics := ⟨4, ⟨[], [], [], []⟩, 0, 0, 0, [], 0⟩

def pmZero : PRMetrics := ⟨0, 0, 0, 0, none, 0, 0, 0, 0⟩

def rmZero : ReviewMetrics := ⟨0, 0, none, 0, 0, 0⟩

def imZero : IssueMetrics := ⟨0, 0, 0, none, 0, 0, 0⟩

/-- The snapshot the C9 witness expects to be built. -/
def prodTwoDays : ProductivityMetrics :=
  ⟨0, 2 * usPerDay, cmFour, pmZero, rmZero, imZero, [], []⟩

/-- Witness for C9 at a concrete two-day period with four commits:
construction succeeds and the daily average evaluates to `2`, while a
backwards period is rejected. -/
theorem c9_witness :
    (mkProductivityMetrics 0 (2 * usPerDay) cmFour pmZero rmZero imZero [] []).toOption.map
      (fun p => p.daily_commit_average) = some 2 ∧
    ¬ ∃ p, mkProductivityMetrics usPerDay 0 cmFour pmZero rmZero imZero [] [] = .ok p := by
  have hok : mkProductivityMetrics 0 (2 * usPerDay) cmFour pmZero rmZero imZero [] [] =
      .ok prodTwoDays := by
    unfold mkProductivityMetrics
    rw [if_neg (by norm_num [usPerDay])]
    rfl
  constructor
  · have h2 := (c9_period_validation_and_daily_average 0 (2 * usPerDay)
      cmFour pmZero rmZero imZero [] []).2 prodTwoDays hok
    have hdays : prodTwoDays.period_days = 2 := by decide
    have htot : prodTwoDays.commit_metrics.total_commits = 4 := rfl
    have h3 : prodTwoDays.daily_commit_average = 2 := by
      rw [h2, hdays, htot]; norm_num
    rw [hok]
    simp [Except.toOption, h3]
  · intro hex
    have h1 := (c9_period_validation_and_daily_average usPerDay 0
      cmFour pmZero rmZero imZero [] []).1.mp hex
    norm_num [usPerDay] at h1

/-! ## Claim C10 -/

/-- **C10**: the derived `time_to_merge` of a merged-dated PR and
`time_to_close` of a close-dated issue are the exact elapsed time in
hours truncated toward zero to a whole integer (floor for non-negative
spans, ceiling for negative ones), so fractional hours are discarded
before the aggregators average them. -/
theorem c10_hours_truncate_toward_zero :
    (∀ (pr : PullRequest) (m : Int), pr.merged_at = some m →
      ∃ t : Int, pr.time_to_merge = some t ∧
        (0 ≤ ((m - pr.created_at : Int) : ℚ) / (usPerHour : ℚ) →
          t = ⌊((m - pr.created_at : Int) : ℚ) / (usPerHour : ℚ)⌋) ∧
        (((m - pr.created_at : Int) : ℚ) / (usPerHour : ℚ) < 0 →
          t = ⌈((m - pr.created_at : Int) : ℚ) / (usPerHour : ℚ)⌉)) ∧
    (∀ (i : Issue) (c : Int), i.closed_at = some c →
      ∃ t : Int, i.time_to_close = some t ∧
        (0 ≤ ((c - i.created_at : Int) : ℚ) / (usPerHour : ℚ) →
          t = ⌊((c - i.created_at : Int) : ℚ) / (usPerHour : ℚ)⌋) ∧
        (((c - i.created_at : Int) : ℚ) / (usPerHour : ℚ) < 0 →
          t = ⌈((c - i.created_at : Int) : ℚ) / (usPerHour : ℚ)⌉)) := by
  have hpos : (0 : Int) < usPerHour := by norm_num [usPerHour]
  constructor
  · intro pr m hm
    refine ⟨(m - pr.created_at).tdiv usPerHour, ?_, ?_, ?_⟩
    · simp [PullRequest.time_to_merge, hm]
    · exact (tdiv_trunc (m - pr.created_at) usPerHour hpos).1
    · exact (tdiv_trunc (m - pr.created_at) usPerHour hpos).2
  · intro i c hc
    refine ⟨(c - i.created_at).tdiv usPerHour, ?_, ?_, ?_⟩
    · simp [Issue.time_to_close, hc]
    · exact (tdiv_trunc (c - i.created_at) usPerHour hpos).1
    · exact (tdiv_trunc (c - i.created_at) usPerHour hpos).2

/-- Witness for C10: a PR merged 90 minutes after creation reports
`time_to_merge = 1` even though the exact elapsed time is `3/2` hours,
and an issue closed 90 minutes before creation reports `-1`. -/
theorem c10_witness :
    (PullRequest.mk 1 "t" "a" 0 .MERGED (some 5400000000) none 0 0 0 []).time_to_merge
        = some 1 ∧
    ((5400000000 - 0 : Int) : ℚ) / (usPerHour : ℚ) = 3 / 2 ∧
    (Issue.mk 1 "t" "a" 5400000000 .OPEN (some 0) none [] none).time_to_close
        = some (-1) := by
  obtain ⟨t1, he1, hf1, _⟩ := c10_hours_truncate_toward_zero.1
    (PullRequest.mk 1 "t" "a" 0 .MERGED (some 5400000000) none 0 0 0 []) 5400000000 rfl
  obtain ⟨t2, he2, _, hc2⟩ := c10_hours_truncate_toward_zero.2
    (Issue.mk 1 "t" "a" 5400000000 .OPEN (some 0) none [] none) 0 rfl
  refine ⟨?_, by norm_num [usPerHour], ?_⟩
  · rw [he1, hf1 (by norm_num [usPerHour])]
    norm_num [usPerHour]
  · rw [he2, hc2 (by norm_num [usPerHour])]
    norm_num [usPerHour, Int.ceil_eq_iff]

/-- A successful `mkPRMetrics` returns exactly the record of its
arguments. -/
theorem mkPRMetrics_fields {t m c o : Nat} {avg : Option ℚ} {aa ad ac mr : ℚ}
    {r : PRMetrics} (h : mkPRMetrics t m c o avg aa ad ac mr = .ok r) :
    r = ⟨t, m, c, o, avg, aa, ad, ac, mr⟩ := by
  unfold mkPRMetrics at h
  split at h
  · cases h
  · split at h
    · cases h
    · cases h; rfl

/-- `mkPRMetrics` succeeds when its validation conditions hold. -/
theorem mkPRMetrics_succeeds {t m c o : Nat} {avg : Option ℚ} {aa ad ac mr : ℚ}
    (hsum : t = m + c + o) (h0 : 0 ≤ mr) (h1 : mr ≤ 100) :
    mkPRMetrics t m c o avg aa ad ac mr = .ok ⟨t, m, c, o, avg, aa, ad, ac, mr⟩ := by
  unfold mkPRMetrics
  rw [if_neg (by omega), if_neg (not_not_intro ⟨h0, h1⟩)]

/-! ## Claim C1 -/

/-- A pull request recorded in state MERGED but with no `merged_at`: the
data model accepts it (`__post_init__` never relates the two fields). -/
def prMergedNoDate : PullRequest := ⟨1, "t", "bob", 0, .MERGED, none, none, 0, 0, 0, []⟩

/-- **C1 counterexample**: on a list holding one MERGED-state PR without
a merge timestamp, `calculate_pr_metrics` does not return a `PRMetrics`
at all — the PR is counted in none of the three buckets, so the
`PRMetrics` validator raises. -/
theorem c1_counterexample :
    calculate_pr_metrics [prMergedNoDate] = .error "PR counts must sum to total" := by
  rfl

/-- **C1 (amended)**: for every list of `PullRequest` in which each
MERGED-state PR carries a `merged_at`, `calculate_pr_metrics` returns a
`PRMetrics` with `merged_prs + closed_prs + open_prs = total_prs`, where
`total_prs` is the list length, `merged_prs` counts PRs with `is_merged`,
`closed_prs` counts CLOSED-state unmerged PRs and `open_prs` counts
OPEN-state PRs (on a list violating that proviso the constructor raises
instead, see the counterexample). -/
theorem c1_pr_counts_sum_to_total (prs : List PullRequest)
    (h : ∀ pr ∈ prs, pr.state = .MERGED → pr.merged_at.isSome) :
    ∃ r, calculate_pr_metrics prs = .ok r ∧
      r.merged_prs + r.closed_prs + r.open_prs = r.total_prs ∧
      r.total_prs = prs.length ∧
      r.merged_prs = prs.countP (fun pr => pr.is_merged) ∧
      r.closed_prs = prs.countP (fun pr => pr.state.value == "closed" && !pr.is_merged) ∧
      r.open_prs = prs.countP (fun pr => pr.state.value == "open") := by
  by_cases hne : prs = []
  · subst hne
    exact ⟨⟨0, 0, 0, 0, none, 0, 0, 0, 0⟩, by rfl, by simp, by simp, by simp, by simp, by simp⟩
  · have hemp : prs.isEmpty = false := List.isEmpty_eq_false.mpr hne
    have hpart := pr_state_partition prs h
    have hflt : (prs.filter (fun pr => pr.is_merged)).length +
        (prs.filter (fun pr => pr.state.value == "closed" && !pr.is_merged)).length +
        (prs.filter (fun pr => pr.state.value == "open")).length = prs.length := by
      simpa only [List.countP_eq_length_filter] using hpart
    have hml : (prs.filter (fun pr => pr.is_merged)).length ≤ prs.length :=
      List.length_filter_le _ _
    have hpos : 0 < prs.length := List.length_pos.mpr hne
    have hrate := pct_bounds hml hpos
    simp only [calculate_pr_metrics, hemp, Bool.false_eq_true, if_false]
    rw [if_pos hpos]
    refine ⟨_, mkPRMetrics_succeeds (by omega) hrate.1 hrate.2, ?_, ?_, ?_, ?_, ?_⟩
    · simpa using hflt
    · rfl
    · exact (List.countP_eq_length_filter _ _).symm
    · exact (List.countP_eq_length_filter _ _).symm
    · exact (List.countP_eq_length_filter _ _).symm

/-- An everyday open PR used by witnesses. -/
def prOpenPlain : PullRequest := ⟨1, "t", "bob", 0, .OPEN, none, none, 0, 0, 0, []⟩

/-- Witness for C1 on a one-element list satisfying the proviso: the
computed counts sum to the total. -/
theorem c1_witness :
    (∀ pr ∈ [prOpenPlain], pr.state = .MERGED → pr.merged_at.isSome) ∧
    (calculate_pr_metrics [prOpenPlain]).toOption.map
      (fun r => (r.merged_prs + r.closed_prs + r.open_prs, r.total_prs)) = some (1, 1) := by
  have hh : ∀ pr ∈ [prOpenPlain], pr.state = .MERGED → pr.merged_at.isSome := by
    intro pr hpr
    rw [List.mem_singleton] at hpr
    subst hpr
    intro hs
    simp [prOpenPlain] at hs
  obtain ⟨r, hok, hsum, htot, _, _, _⟩ := c1_pr_counts_sum_to_total [prOpenPlain] hh
  refine ⟨hh, ?_⟩
  rw [hok]
  rw [List.length_singleton] at htot
  simp [Except.toOption, hsum, htot]

/-! ## Claim C3 -/

/-- `some (listMeanI l)` guarded by emptiness is `none` exactly on the
empty list. -/
theorem ifMeanI_none_iff (l : List Int) :
    (if l.isEmpty then none else some (listMeanI l)) = none ↔ l = [] := by
  split <;> rename_i hsp <;> simp_all [List.isEmpty_iff]

/-- A MERGED pull request merged two hours after creation. -/
def prMergedTwoHours : PullRequest :=
  ⟨1, "t", "bob", 0, .MERGED, some 7200000000, none, 0, 0, 0, []⟩

/-- A CLOSED-state pull request that nevertheless carries a `merged_at`
four hours after creation: `is_merged` is false for it, yet its
`time_to_merge` is 4. -/
def prClosedWithMergeDate : PullRequest :=
  ⟨2, "t", "bob", 0, .CLOSED, some 14400000000, none, 0, 0, 0, []⟩

/-- **C3 counterexample**: on `[prMergedTwoHours, prClosedWithMergeDate]`
the code averages over every PR having a `merged_at` (giving
`(2+4)/2 = 3`), not over the merged PRs only (which would give `2`). -/
theorem c3_counterexample :
    (calculate_pr_metrics [prMergedTwoHours, prClosedWithMergeDate]).toOption.map
      (fun r => r.average_time_to_merge) = some (some 3) ∧
    specMeanTimeToMergeMergedOnly [prMergedTwoHours, prClosedWithMergeDate] = some 2 ∧
    (3 : ℚ) ≠ 2 := by
  refine ⟨by with_unfolding_all rfl, by with_unfolding_all rfl, by norm_num⟩

/-- **C3 (amended)**: `average_time_to_merge` is the arithmetic mean of
`time_to_merge` over the PRs with a known merge time (`merged_at`
present) — merged-state or not — and is `None` exactly when no PR in the
list has a merge time. -/
theorem c3_avg_merge_time_over_dated (prs : List PullRequest) (r : PRMetrics)
    (hok : calculate_pr_metrics prs = .ok r) :
    r.average_time_to_merge = specMeanTimeToMergeKnown prs ∧
    (r.average_time_to_merge = none ↔ ∀ pr ∈ prs, pr.merged_at = none) := by
  by_cases hne : prs = []
  · subst hne
    have hok2 : mkPRMetrics 0 0 0 0 none 0 0 0 0 = .ok r := hok
    have hr := mkPRMetrics_fields hok2
    subst hr
    exact ⟨rfl, by simp⟩
  · have hemp : prs.isEmpty = false := List.isEmpty_eq_false.mpr hne
    simp only [calculate_pr_metrics, hemp, Bool.false_eq_true, if_false] at hok
    have hr := mkPRMetrics_fields hok
    subst hr
    constructor
    · unfold specMeanTimeToMergeKnown
      rw [← filterMap_ttm_filter]
    · refine Iff.trans (ifMeanI_none_iff _) ?_
      rw [List.filterMap_eq_nil_iff]
      simp only [time_to_merge_none_iff]

/-- A pull request merged exactly 24 hours after creation. -/
def prMergedDay : PullRequest :=
  ⟨1, "t", "a", 0, .MERGED, some (24 * usPerHour), none, 0, 0, 0, []⟩

/-- The `PRMetrics` record `calculate_pr_metrics` computes for
`[prMergedDay]`. -/
def prmDay : PRMetrics := ⟨1, 1, 0, 0, some 24, 0, 0, 0, 100⟩

/-- Witness for C3 on a single 24-hour merge: the field and the
known-merge-time mean agree at `some 24`. -/
theorem c3_witness :
    specMeanTimeToMergeKnown [prMergedDay] = some 24 ∧
    prmDay.average_time_to_merge = some 24 := by
  have hok : calculate_pr_metrics [prMergedDay] = .ok prmDay := by with_unfolding_all rfl
  have h := c3_avg_merge_time_over_dated [prMergedDay] prmDay hok
  exact ⟨h.1.symm.trans rfl, rfl⟩

/-! ## Claim C7 -/

/-- A successful `mkIssueMetrics` returns exactly the record of its
arguments. -/
theorem mkIssueMetrics_fields {t c o : Nat} {avg : Option ℚ} {rr : ℚ} {ic ia : Nat}
    {r : IssueMetrics} (h : mkIssueMetrics t c o avg rr ic ia = .ok r) :
    r = ⟨t, c, o, avg, rr, ic, ia⟩ := by
  unfold mkIssueMetrics at h
  split at h
  · cases h
  · split at h
    · cases h
    · cases h; rfl

/-- `mkIssueMetrics` succeeds when its validation conditions hold. -/
theorem mkIssueMetrics_succeeds {t c o : Nat} {avg : Option ℚ} {rr : ℚ} {ic ia : Nat}
    (hsum : t = c + o) (h0 : 0 ≤ rr) (h1 : rr ≤ 100) :
    mkIssueMetrics t c o avg rr ic ia = .ok ⟨t, c, o, avg, rr, ic, ia⟩ := by
  unfold mkIssueMetrics
  rw [if_neg (by omega), if_neg (not_not_intro ⟨h0, h1⟩)]

/-- An issue closed ten hours after creation. -/
def issClosedTen : Issue := ⟨1, "t", "bob", 0, .CLOSED, some 36000000000, none, [], none⟩

/-- An OPEN-state issue that nevertheless carries a `closed_at` equal to
its creation instant: `is_closed` is false for it, yet its
`time_to_close` is 0. -/
def issOpenWithCloseDate : Issue := ⟨2, "t", "bob", 0, .OPEN, some 0, none, [], none⟩

/-- **C7 counterexample**: on `[issClosedTen, issOpenWithCloseDate]` the
code averages over every issue having a `closed_at` (giving
`(10+0)/2 = 5`), not over the closed issues only (which would give
`10`). -/
theorem c7_counterexample :
    (calculate_issue_metrics [issClosedTen, issOpenWithCloseDate] none).toOption.map
      (fun r => r.average_time_to_close) = some (some 5) ∧
    specMeanTimeToCloseClosedOnly [issClosedTen, issOpenWithCloseDate] = some 10 ∧
    (5 : ℚ) ≠ 10 := by
  refine ⟨by with_unfolding_all rfl, by with_unfolding_all rfl, by norm_num⟩

/-- **C7 (amended)**: `calculate_issue_metrics` always succeeds; its
`total_issues`/`closed_issues`/`open_issues` describe the full input
list regardless of `target_author`, and `average_time_to_close` — also
independent of the target — is the mean of `time_to_close` over the
issues with a known close time (`closed_at` present, closed-state or
not), `None` exactly when no issue has one. -/
theorem c7_issue_totals_and_avg (issues : List Issue) (target : Option String) :
    ∃ r r₀, calculate_issue_metrics issues target = .ok r ∧
      calculate_issue_metrics issues none = .ok r₀ ∧
      r.total_issues = issues.length ∧
      r.closed_issues = issues.countP (fun i => i.is_closed) ∧
      r.open_issues = r.total_issues - r.closed_issues ∧
      r.total_issues = r₀.total_issues ∧
      r.closed_issues = r₀.closed_issues ∧
      r.open_issues = r₀.open_issues ∧
      r.average_time_to_close = r₀.average_time_to_close ∧
      r.average_time_to_close = specMeanTimeToCloseKnown issues ∧
      (r.average_time_to_close = none ↔ ∀ i ∈ issues, i.closed_at = none) := by
  by_cases hne : issues = []
  · subst hne
    refine ⟨⟨0, 0, 0, none, 0, 0, 0⟩, ⟨0, 0, 0, none, 0, 0, 0⟩, by rfl, by rfl, ?_⟩
    simp [specMeanTimeToCloseKnown, listMeanI]
  · have hemp : issues.isEmpty = false := List.isEmpty_eq_false.mpr hne
    have hcl : (issues.filter (fun i => i.is_closed)).length ≤ issues.length :=
      List.length_filter_le _ _
    have hpos : 0 < issues.length := List.length_pos.mpr hne
    have hrate := pct_bounds hcl hpos
    simp only [calculate_issue_metrics, hemp, Bool.false_eq_true, if_false]
    rw [if_pos hpos]
    refine ⟨_, _, mkIssueMetrics_succeeds (by omega) hrate.1 hrate.2,
      mkIssueMetrics_succeeds (by omega) hrate.1 hrate.2,
      rfl, (List.countP_eq_length_filter _ _).symm, rfl, rfl, rfl, rfl, rfl, ?_, ?_⟩
    · show (if (issues.filterMap (fun i => i.time_to_close)).isEmpty then none
        else some (listMeanI (issues.filterMap (fun i => i.time_to_close)))) =
        specMeanTimeToCloseKnown issues
      unfold specMeanTimeToCloseKnown
      rw [← filterMap_ttc_filter]
    · refine Iff.trans (ifMeanI_none_iff _) ?_
      rw [List.filterMap_eq_nil_iff]
      simp only [time_to_close_none_iff]

/-- Witness for C7 on a single closed issue, with a target author: the
totals describe the list and the average is ten hours. -/
theorem c7_witness :
    (calculate_issue_metrics [issClosedTen] (some "bob")).toOption.map
      (fun r => (r.total_issues, r.closed_issues, r.open_issues, r.average_time_to_close)) =
    some (1, 1, 0, some 10) := by
  obtain ⟨r, r0, hok, _, h1, h2, h3, _, _, _, _, h4, _⟩ :=
    c7_issue_totals_and_avg [issClosedTen] (some "bob")
  have h5 : specMeanTimeToCloseKnown [issClosedTen] = some 10 := by with_unfolding_all rfl
  have h6 : List.countP (fun i => i.is_closed) [issClosedTen] = 1 := by decide
  rw [hok]
  simp only [Except.toOption, Option.map]
  rw [h1, h2, h6, h3, h1, h2, h6, h4, h5]
  rfl

/-! ## Review metrics helpers (claims C4, C5) -/

/-- `some (listMeanQ l)` guarded by emptiness is `none` exactly on the
empty list. -/
theorem ifMeanQ_none_iff (l : List ℚ) :
    (if l.isEmpty then none else some (listMeanQ l)) = none ↔ l = [] := by
  split <;> rename_i hsp <;> simp_all [List.isEmpty_iff]

/-- A successful `mkReviewMetrics` returns exactly the record of its
arguments. -/
theorem mkReviewMetrics_fields {g v : Nat} {avg : Option ℚ} {ar cr pr : ℚ}
    {r : ReviewMetrics} (h : mkReviewMetrics g v avg ar cr pr = .ok r) :
    r = ⟨g, v, avg, ar, cr, pr⟩ := by
  unfold mkReviewMetrics at h
  split at h
  · cases h
  · cases h; rfl

/-- `mkReviewMetrics` succeeds when all three rates are percentages. -/
theorem mkReviewMetrics_succeeds {g v : Nat} {avg : Option ℚ} {ar cr pr : ℚ}
    (h : 0 ≤ ar ∧ ar ≤ 100 ∧ 0 ≤ cr ∧ cr ≤ 100 ∧ 0 ≤ pr ∧ pr ≤ 100) :
    mkReviewMetrics g v avg ar cr pr = .ok ⟨g, v, avg, ar, cr, pr⟩ := by
  unfold mkReviewMetrics
  rw [if_neg (not_not_intro ⟨h.1, h.2.1, h.2.2.1, h.2.2.2.1, h.2.2.2.2.1, h.2.2.2.2.2⟩)]

theorem approvalRate_bounds (rs : List Review) :
    0 ≤ calculateApprovalRate rs ∧ calculateApprovalRate rs ≤ 100 := by
  unfold calculateApprovalRate
  split
  · norm_num
  · rename_i hne
    exact pct_bounds (List.length_filter_le _ _)
      (List.length_pos.mpr (by simpa [List.isEmpty_iff] using hne))

theorem changeRequestRate_bounds (rs : List Review) :
    0 ≤ calculateChangeRequestRate rs ∧ calculateChangeRequestRate rs ≤ 100 := by
  unfold calculateChangeRequestRate
  split
  · norm_num
  · rename_i hne
    exact pct_bounds (List.length_filter_le _ _)
      (List.length_pos.mpr (by simpa [List.isEmpty_iff] using hne))

theorem participationRate_bounds (prs : List PullRequest) (target : Option String) :
    0 ≤ calculateParticipationRate prs target ∧
    calculateParticipationRate prs target ≤ 100 := by
  unfold calculateParticipationRate
  split
  · norm_num
  · rename_i hne
    cases target with
    | some t =>
      simp only
      split
      · norm_num
      · rename_i hrev
        exact pct_bounds (List.length_filter_le _ _)
          (List.length_pos.mpr (by simpa [List.isEmpty_iff] using hrev))
    | none =>
      simp only
      exact pct_bounds (List.length_filter_le _ _)
        (List.length_pos.mpr (by simpa [List.isEmpty_iff] using hne))

/-- `calculate_review_metrics` always succeeds, its `average_review_time`
is the guarded mean of the response times of the whole input, and its
participation rate is `_calculate_participation_rate`. -/
theorem calculate_review_metrics_spec (prs : List PullRequest) (target : Option String) :
    ∃ r, calculate_review_metrics prs target = .ok r ∧
      r.average_review_time = (if (calculateReviewResponseTimes prs).isEmpty then none
        else some (listMeanQ (calculateReviewResponseTimes prs))) ∧
      r.review_participation_rate = calculateParticipationRate prs target := by
  by_cases hne : prs = []
  · subst hne
    exact ⟨⟨0, 0, none, 0, 0, 0⟩, by rfl, by rfl, by rfl⟩
  · have hemp : prs.isEmpty = false := List.isEmpty_eq_false.mpr hne
    simp only [calculate_review_metrics, hemp, Bool.false_eq_true, if_false]
    refine ⟨_, mkReviewMetrics_succeeds ⟨(approvalRate_bounds _).1, (approvalRate_bounds _).2,
      (changeRequestRate_bounds _).1, (changeRequestRate_bounds _).2,
      (participationRate_bounds _ _).1, (participationRate_bounds _ _).2⟩, rfl, rfl⟩

/-! ## Claim C4 -/

/-- **C4**: with a target author and a non-empty PR list, the
review-participation rate is the percentage of PRs not authored by the
target on which the target left at least one review; it is `0.0` when
the target authored every PR (no division-by-zero) and `100.0` when the
target reviewed every reviewable PR. -/
theorem c4_participation_rate (prs : List PullRequest) (t : String) (hne : prs ≠ []) :
    ∃ r, calculate_review_metrics prs (some t) = .ok r ∧
      ((∀ pr ∈ prs, pr.author = t) → r.review_participation_rate = 0) ∧
      ((∃ pr ∈ prs, pr.author ≠ t) → r.review_participation_rate =
        ((prs.countP (fun pr => (pr.reviews.any (fun rv => rv.reviewer == t)) &&
            decide (pr.author ≠ t))) : ℚ) /
        ((prs.countP (fun pr => pr.author ≠ t)) : ℚ) * 100) ∧
      ((∃ pr ∈ prs, pr.author ≠ t) ∧ (∀ pr ∈ prs, pr.author ≠ t →
          pr.reviews.any (fun rv => rv.reviewer == t)) →
        r.review_participation_rate = 100) := by
  obtain ⟨r, hok, _, hpart⟩ := calculate_review_metrics_spec prs (some t)
  have hemp : prs.isEmpty = false := List.isEmpty_eq_false.mpr hne
  refine ⟨r, hok, ?_, ?_, ?_⟩
  · intro hall
    have hrev : prs.filter (fun pr => pr.author ≠ t) = [] := by
      rw [List.filter_eq_nil_iff]
      intro pr hpr
      simp [hall pr hpr]
    rw [hpart]
    unfold calculateParticipationRate
    simp only [hemp, Bool.false_eq_true, if_false, hrev]
    rfl
  · intro ⟨pr0, hpr0, hpr0ne⟩
    have hrev : prs.filter (fun pr => pr.author ≠ t) ≠ [] := by
      intro hnil
      rw [List.filter_eq_nil_iff] at hnil
      exact absurd hpr0ne (by simpa using hnil pr0 hpr0)
    have hrevE : (prs.filter (fun pr => pr.author ≠ t)).isEmpty = false :=
      List.isEmpty_eq_false.mpr hrev
    rw [hpart]
    unfold calculateParticipationRate
    simp only [hemp, Bool.false_eq_true, if_false, hrevE]
    rw [List.filter_filter, List.countP_eq_length_filter, List.countP_eq_length_filter]
  · intro ⟨⟨pr0, hpr0, hpr0ne⟩, hallrev⟩
    have hrev : prs.filter (fun pr => pr.author ≠ t) ≠ [] := by
      intro hnil
      rw [List.filter_eq_nil_iff] at hnil
      exact absurd hpr0ne (by simpa using hnil pr0 hpr0)
    have hrevE : (prs.filter (fun pr => pr.author ≠ t)).isEmpty = false :=
      List.isEmpty_eq_false.mpr hrev
    have hfull : (prs.filter (fun pr => pr.author ≠ t)).filter
        (fun pr => pr.reviews.any (fun rv => rv.reviewer == t)) =
        prs.filter (fun pr => pr.author ≠ t) := by
      rw [List.filter_eq_self]
      intro pr hpr
      rw [List.mem_filter] at hpr
      exact hallrev pr hpr.1 (by simpa using hpr.2)
    rw [hpart]
    unfold calculateParticipationRate
    simp only [hemp, Bool.false_eq_true, if_false, hrevE, hfull]
    have hlen : (0 : ℚ) < ((prs.filter (fun pr => pr.author ≠ t)).length : ℚ) := by
      exact_mod_cast List.length_pos.mpr hrev
    field_simp
    simp only [decide_not] at hlen
    rw [mul_comm, mul_div_assoc, div_self (ne_of_gt hlen), mul_one]

/-- A review by carol submitted ten hours after the PR it sits on was
created. -/
def rvCarolTen : Review := ⟨"carol", "APPROVED", 36000000000, none⟩

/-- A review by carol submitted two hours after the PR it sits on was
created. -/
def rvCarolTwo : Review := ⟨"carol", "APPROVED", 7200000000, none⟩

/-- A PR authored by bob, reviewed by carol at +10h. -/
def prBobCarolReview : PullRequest := ⟨1, "t", "bob", 0, .OPEN, none, none, 0, 0, 0, [rvCarolTen]⟩

/-- A PR authored by alice, reviewed by carol at +2h. -/
def prAliceCarolReview : PullRequest := ⟨2, "t", "alice", 0, .OPEN, none, none, 0, 0, 0, [rvCarolTwo]⟩

/-- Witness for C4: with target alice on a list she authored entirely
the rate is 0; with target carol on a list of one reviewable PR she
reviewed, the rate is 100. -/
theorem c4_witness :
    (calculate_review_metrics [prAliceCarolReview] (some "alice")).toOption.map
      (fun r => r.review_participation_rate) = some 0 ∧
    (calculate_review_metrics [prBobCarolReview] (some "carol")).toOption.map
      (fun r => r.review_participation_rate) = some 100 := by
  constructor
  · obtain ⟨r, hok, h0, _, _⟩ :=
      c4_participation_rate [prAliceCarolReview] "alice" (by simp)
    have hz := h0 (by intro pr hpr; rw [List.mem_singleton] at hpr; subst hpr; rfl)
    rw [hok]
    simp [Except.toOption, hz]
  · obtain ⟨r, hok, _, _, h100⟩ :=
      c4_participation_rate [prBobCarolReview] "carol" (by simp)
    have hz := h100 ⟨⟨prBobCarolReview, by simp, by simp [prBobCarolReview]⟩,
      by intro pr hpr _; rw [List.mem_singleton] at hpr; subst hpr; rfl⟩
    rw [hok]
    simp [Except.toOption, hz]

/-! ## Claim C5 -/

/-- **C5 counterexample**: with target alice on
`[prBobCarolReview, prAliceCarolReview]`, the code's
`average_review_time` is the mean over all reviews in the input,
`(10+2)/2 = 6`, while the relevant review pool of alice (reviews she
gave or received) averages to `2`. -/
theorem c5_counterexample :
    (calculate_review_metrics [prBobCarolReview, prAliceCarolReview] (some "alice")).toOption.map
      (fun r => r.average_review_time) = some (some 6) ∧
    specMeanReviewTimePool [prBobCarolReview, prAliceCarolReview] (some "alice") = some 2 ∧
    (6 : ℚ) ≠ 2 := by
  refine ⟨by with_unfolding_all rfl, by with_unfolding_all rfl, by norm_num⟩

/-- **C5 (amended)**: `average_review_time` does not depend on the
target author at all: for every target it equals the mean, in hours, of
`review.submitted_at - pr.created_at` over all reviews of the whole
input (the no-target pool), and it is `None` exactly when no PR carries
any review. -/
theorem c5_avg_review_time_ignores_target (prs : List PullRequest) (target : Option String) :
    ∃ r r₀, calculate_review_metrics prs target = .ok r ∧
      calculate_review_metrics prs none = .ok r₀ ∧
      r.average_review_time = r₀.average_review_time ∧
      r.average_review_time = specMeanReviewTimePool prs none ∧
      (r.average_review_time = none ↔ ∀ pr ∈ prs, pr.reviews = []) := by
  obtain ⟨r, hok, havg, _⟩ := calculate_review_metrics_spec prs target
  obtain ⟨r₀, hok₀, havg₀, _⟩ := calculate_review_metrics_spec prs none
  have hpool : specMeanReviewTimePool prs none =
      (if (calculateReviewResponseTimes prs).isEmpty then none
        else some (listMeanQ (calculateReviewResponseTimes prs))) := by
    unfold specMeanReviewTimePool calculateReviewResponseTimes
    simp only [List.filter_true]
  refine ⟨r, r₀, hok, hok₀, havg.trans havg₀.symm, ?_, ?_⟩
  · rw [havg, hpool]
  · rw [havg]
    refine Iff.trans (ifMeanQ_none_iff _) ?_
    unfold calculateReviewResponseTimes
    rw [List.flatMap_eq_nil_iff]
    simp only [List.map_eq_nil_iff]

/-- Witness for C5: with target alice on bob's PR (carol's +10h review),
the average review time is 10 even though alice neither gave nor
received that review. -/
theorem c5_witness :
    (calculate_review_metrics [prBobCarolReview] (some "alice")).toOption.map
      (fun r => r.average_review_time) = some (some 10) := by
  obtain ⟨r, r₀, hok, _, _, hspec, _⟩ :=
    c5_avg_review_time_ignores_target [prBobCarolReview] (some "alice")
  have hval : specMeanReviewTimePool [prBobCarolReview] none = some 10 := by
    with_unfolding_all rfl
  rw [hok]
  simp [Except.toOption, hspec, hval]

/-! ## Claim C6 -/

/-- **C6**: on a non-empty commit list, each of the four
`commit_frequency` groupings (daily, ISO-weekly, monthly, hourly) has
values summing to `total_commits`, which is the input length — every
commit lands in exactly one bucket of each grouping. -/
theorem c6_frequency_sums (commits : List Commit) (hne : commits ≠ []) :
    ((calculate_commit_metrics commits).commit_frequency.daily.map (fun p => p.2)).sum =
      (calculate_commit_metrics commits).total_commits ∧
    ((calculate_commit_metrics commits).commit_frequency.weekly.map (fun p => p.2)).sum =
      (calculate_commit_metrics commits).total_commits ∧
    ((calculate_commit_metrics commits).commit_frequency.monthly.map (fun p => p.2)).sum =
      (calculate_commit_metrics commits).total_commits ∧
    ((calculate_commit_metrics commits).commit_frequency.hourly.map (fun p => p.2)).sum =
      (calculate_commit_metrics commits).total_commits ∧
    (calculate_commit_metrics commits).total_commits = commits.length := by
  have hemp : commits.isEmpty = false := List.isEmpty_eq_false.mpr hne
  simp only [calculate_commit_metrics, hemp, Bool.false_eq_true, if_false]
  unfold calculateCommitFrequency
  refine ⟨?_, ?_, ?_, ?_, trivial⟩ <;>
    simp only [groupCounts_sum, List.length_map]

/-- A commit at 2023-01-01T10:30 with line counts, used by witnesses. -/
def commitW : Commit := ⟨"s1", "bob", 19358 * usPerDay + 10 * usPerHour + 1800000000, "m", 10, 5, 1⟩

/-- Witness for C6 on the single-commit list: every grouping sums to 1. -/
theorem c6_witness :
    ((calculate_commit_metrics [commitW]).commit_frequency.daily.map (fun p => p.2)).sum =
      (calculate_commit_metrics [commitW]).total_commits ∧
    ((calculate_commit_metrics [commitW]).commit_frequency.hourly.map (fun p => p.2)).sum =
      (calculate_commit_metrics [commitW]).total_commits ∧
    (calculate_commit_metrics [commitW]).total_commits = 1 := by
  obtain ⟨h1, _, _, h4, h5⟩ := c6_frequency_sums [commitW] (by simp)
  exact ⟨h1, h4, h5.trans (List.length_singleton _)⟩

/-! ## Claim C2 -/

/-- The bucket width of every period is positive. -/
theorem period_delta_pos (period : MetricPeriod) : 0 < period.delta := by
  cases period <;> decide

/-- **C2**: `generate_time_series_data` returns `[]` when all three
input lists are empty; when at least one is non-empty, the `commits`
counts of the returned velocity points sum to the number of input
commits — every commit is counted in exactly one time bucket. -/
theorem c2_time_series_commit_conservation (commits : List Commit)
    (prs : List PullRequest) (issues : List Issue) (period : MetricPeriod) :
    (commits = [] ∧ prs = [] ∧ issues = [] →
      generate_time_series_data commits prs issues period = []) ∧
    (¬(commits = [] ∧ prs = [] ∧ issues = []) →
      ((generate_time_series_data commits prs issues period).map (fun v => v.commits)).sum =
        commits.length) := by
  constructor
  · rintro ⟨rfl, rfl, rfl⟩
    rfl
  · intro hne
    have hempty : (commits.isEmpty && prs.isEmpty && issues.isEmpty) = false := by
      cases hc : commits.isEmpty <;> cases hp : prs.isEmpty <;> cases hi : issues.isEmpty <;>
        simp_all [List.isEmpty_iff]
    have hadne : commits.map (fun c => c.timestamp) ++
        prs.map (fun pr => pr.created_at) ++ issues.map (fun i => i.created_at) ≠ [] := by
      intro h
      rw [List.append_eq_nil, List.append_eq_nil] at h
      rw [List.map_eq_nil_iff, List.map_eq_nil_iff, List.map_eq_nil_iff] at h
      exact hne ⟨h.1.1, h.1.2, h.2⟩
    have hadE : (commits.map (fun c => c.timestamp) ++
        prs.map (fun pr => pr.created_at) ++ issues.map (fun i => i.created_at)).isEmpty
        = false := List.isEmpty_eq_false.mpr hadne
    simp only [generate_time_series_data, hempty, Bool.false_eq_true, if_false, hadE]
    rw [List.map_map]
    simp only [Function.comp_def]
    simp only [← List.countP_eq_length_filter]
    rw [sum_countP_swap commits _
      (fun (c : Commit) (b : Int × Int) => decide (b.1 ≤ c.timestamp ∧ c.timestamp ≤ b.2))]
    have hone : ∀ c ∈ commits,
        ((generateTimeBuckets
            (listMinI (commits.map (fun c => c.timestamp) ++
              prs.map (fun pr => pr.created_at) ++
              issues.map (fun i => i.created_at)) / usPerDay * usPerDay)
            (listMaxI (commits.map (fun c => c.timestamp) ++
              prs.map (fun pr => pr.created_at) ++
              issues.map (fun i => i.created_at)) / usPerDay * usPerDay + (usPerDay - 1))
            period.delta).countP
          (fun b => decide (b.1 ≤ c.timestamp ∧ c.timestamp ≤ b.2))) = 1 := by
      intro c hc
      have hmem : c.timestamp ∈ commits.map (fun c => c.timestamp) ++
          prs.map (fun pr => pr.created_at) ++ issues.map (fun i => i.created_at) := by
        rw [List.mem_append, List.mem_append]
        exact Or.inl (Or.inl (List.mem_map_of_mem _ hc))
      have hlo := listMinI_le hmem
      have hhi := le_listMaxI hmem
      have hb1 := day_bracket (listMinI (commits.map (fun c => c.timestamp) ++
        prs.map (fun pr => pr.created_at) ++ issues.map (fun i => i.created_at)))
      have hb2 := day_bracket (listMaxI (commits.map (fun c => c.timestamp) ++
        prs.map (fun pr => pr.created_at) ++ issues.map (fun i => i.created_at)))
      exact buckets_countP_one _ _ _ _ (period_delta_pos period)
        (by omega) (by omega)
    rw [List.map_congr_left hone]
    simp

/-- Witness for C2: on one commit (and no PRs or issues) the velocity
points carry exactly one commit in total. -/
theorem c2_witness :
    ¬([commitW] = ([] : List Commit) ∧ ([] : List PullRequest) = [] ∧ ([] : List Issue) = []) ∧
    ((generate_time_series_data [commitW] [] [] .DAILY).map (fun v => v.commits)).sum = 1 := by
  have hne : ¬([commitW] = ([] : List Commit) ∧ ([] : List PullRequest) = [] ∧
      ([] : List Issue) = []) := by simp
  refine ⟨hne, ?_⟩
  have h := (c2_time_series_commit_conservation [commitW] [] [] .DAILY).2 hne
  simpa using h

/-! ## Claim C8 -/

theorem mem_groupCounts {K : Type} [DecidableEq K] {p : K × Nat} {keys : List K}
    (h : p ∈ groupCounts keys) : p.1 ∈ keys ∧ p.2 = keys.count p.1 := by
  unfold groupCounts at h
  obtain ⟨k, hk, hkp⟩ := List.mem_map.mp h
  cases hkp
  exact ⟨mem_firstKeys.mp hk, rfl⟩

theorem groupCounts_mem_intro {K : Type} [DecidableEq K] {k : K} {keys : List K}
    (h : k ∈ keys) : (k, keys.count k) ∈ groupCounts keys := by
  unfold groupCounts
  exact List.mem_map_of_mem _ (mem_firstKeys.mpr h)

theorem groupCounts_key_inj {K : Type} [DecidableEq K] {p q : K × Nat} {keys : List K}
    (hp : p ∈ groupCounts keys) (hq : q ∈ groupCounts keys) (hk : p.1 = q.1) : p = q := by
  obtain ⟨_, hp2⟩ := mem_groupCounts hp
  obtain ⟨_, hq2⟩ := mem_groupCounts hq
  obtain ⟨p1, p2⟩ := p
  obtain ⟨q1, q2⟩ := q
  simp only at hp2 hq2 hk
  subst hk
  simp [hp2, hq2]

theorem groupCounts_nodup {K : Type} [DecidableEq K] (keys : List K) :
    (groupCounts keys).Nodup := by
  unfold groupCounts
  exact (firstKeys_nodup keys).map (fun x y hxy => congrArg Prod.fst hxy)

/-- A pair-sublist of a duplicate-free list survives truncation to a
prefix that still holds its second element. -/
theorem pair_sublist_take {A : Type} {a b : A} {l : List A} {n : Nat} (hnd : l.Nodup)
    (h : List.Sublist [a, b] l) (hb : b ∈ l.take n) :
    List.Sublist [a, b] (l.take n) := by
  induction l generalizing n with
  | nil => cases h
  | cons x t ih =>
    cases n with
    | zero => simp at hb
    | succ n =>
      rw [List.take_succ_cons] at hb ⊢
      cases h with
      | cons _ ht =>
        have hbx : b ≠ x := by
          intro he
          subst he
          exact (List.nodup_cons.mp hnd).1 (ht.subset (by simp))
        have hbt : b ∈ t.take n := by
          rcases List.mem_cons.mp hb with h1 | h1
          · exact absurd h1 hbx
          · exact h1
        exact (ih (List.nodup_cons.mp hnd).2 ht hbt).cons x
      | cons₂ _ ht =>
        have hbt2 : b ∈ t := ht.subset (by simp)
        have hba : b ≠ a := by
          intro he
          subst he
          exact (List.nodup_cons.mp hnd).1 hbt2
        have hbtake : b ∈ t.take n := by
          rcases List.mem_cons.mp hb with h1 | h1
          · exact absurd h1 hba
          · exact h1
        exact List.Sublist.cons₂ a (List.singleton_sublist.mpr hbtake)

/-- **C8**: on a non-empty commit list, `most_active_hours` is the
stable most-common-3 selection over the hour counter: it lists
`min 3 (number of distinct hours)` hours, each an hour of some commit,
in non-increasing order of commit count; every listed hour's count is at
least every unlisted hour's count; and two listed hours of equal count
appear in first-encounter order (`firstKeys` of the hour stream is
exactly the counter's first-occurrence key order). -/
theorem c8_most_active_hours (commits : List Commit) (hne : commits ≠ []) :
    (calculate_commit_metrics commits).most_active_hours.length =
      min 3 (firstKeys (commitHours commits)).length ∧
    (∀ h ∈ (calculate_commit_metrics commits).most_active_hours,
      h ∈ commitHours commits) ∧
    (calculate_commit_metrics commits).most_active_hours.Pairwise
      (fun h1 h2 => (commitHours commits).count h2 ≤ (commitHours commits).count h1) ∧
    (∀ h ∈ commitHours commits,
      h ∉ (calculate_commit_metrics commits).most_active_hours →
      ∀ h' ∈ (calculate_commit_metrics commits).most_active_hours,
        (commitHours commits).count h ≤ (commitHours commits).count h') ∧
    (∀ h1 h2, List.Sublist [h1, h2] (firstKeys (commitHours commits)) →
      (commitHours commits).count h1 = (commitHours commits).count h2 →
      h1 ∈ (calculate_commit_metrics commits).most_active_hours →
      h2 ∈ (calculate_commit_metrics commits).most_active_hours →
      List.Sublist [h1, h2] (calculate_commit_metrics commits).most_active_hours) := by
  have hemp : commits.isEmpty = false := List.isEmpty_eq_false.mpr hne
  have hmah : (calculate_commit_metrics commits).most_active_hours =
      (((groupCounts (commitHours commits)).mergeSort
        (fun a b => decide (b.2 ≤ a.2))).take 3).map (fun p => p.1) := by
    simp only [calculate_commit_metrics, hemp, Bool.false_eq_true, if_false]
    rfl
  set keys := commitHours commits with hkeys
  set gc := groupCounts keys with hgcdef
  set lep : Int × Nat → Int × Nat → Bool := fun a b => decide (b.2 ≤ a.2) with hlepdef
  set sorted := gc.mergeSort lep with hsorteddef
  have htrans : ∀ a b c : Int × Nat, lep a b → lep b c → lep a c := by
    intro a b c hab hbc
    simp only [hlepdef, decide_eq_true_eq] at *
    omega
  have htot : ∀ a b : Int × Nat, lep a b || lep b a := by
    intro a b
    simp only [hlepdef, Bool.or_eq_true, decide_eq_true_eq]
    omega
  have hsort : sorted.Pairwise (fun a b => lep a b = true) := by
    rw [hsorteddef]
    exact List.sorted_mergeSort htrans htot gc
  have hperm : List.Perm sorted gc := by
    rw [hsorteddef]
    exact List.mergeSort_perm gc lep
  have hgcnd : gc.Nodup := by
    rw [hgcdef]
    exact groupCounts_nodup keys
  have hnd : sorted.Nodup := hperm.nodup_iff.mpr hgcnd
  have hmemgc : ∀ p ∈ List.take 3 sorted, p ∈ gc := by
    intro p hp
    exact hperm.mem_iff.mp ((List.take_sublist 3 sorted).subset hp)
  refine ⟨?_, ?_, ?_, ?_, ?_⟩
  · rw [hmah, List.length_map, List.length_take, List.length_mergeSort, hgcdef]
    simp [groupCounts]
  · rw [hmah]
    intro h hh
    obtain ⟨p, hp, hp1⟩ := List.mem_map.mp hh
    have hmem := (mem_groupCounts (hgcdef ▸ hmemgc p hp)).1
    rw [← hp1]
    exact hmem
  · rw [hmah]
    apply List.pairwise_map.mpr
    rw [List.pairwise_iff_forall_sublist]
    intro p q hsub
    have hple := List.pairwise_iff_forall_sublist.mp hsort
      (hsub.trans (List.take_sublist 3 sorted))
    have hp := mem_groupCounts (hgcdef ▸ hmemgc p (hsub.subset (by simp)))
    have hq := mem_groupCounts (hgcdef ▸ hmemgc q (hsub.subset (by simp)))
    rw [hlepdef] at hple
    simp only [decide_eq_true_eq] at hple
    rw [← hp.2, ← hq.2]
    exact hple
  · intro h hh hnot h' hj
    have hpgc : (h, keys.count h) ∈ gc := hgcdef ▸ groupCounts_mem_intro hh
    have hpsorted : (h, keys.count h) ∈ sorted := hperm.mem_iff.mpr hpgc
    have hsplit : (h, keys.count h) ∈ List.take 3 sorted ∨
        (h, keys.count h) ∈ List.drop 3 sorted := by
      rw [← List.mem_append, List.take_append_drop]
      exact hpsorted
    have hpd : (h, keys.count h) ∈ List.drop 3 sorted := by
      rcases hsplit with hc | hc
      · exact absurd (hmah ▸ List.mem_map.mpr ⟨_, hc, rfl⟩) hnot
      · exact hc
    rw [hmah] at hj
    obtain ⟨q, hqtake, hq1⟩ := List.mem_map.mp hj
    have hcross : ∀ a ∈ List.take 3 sorted, ∀ b ∈ List.drop 3 sorted, lep a b := by
      have hs2 := hsort
      rw [← List.take_append_drop 3 sorted] at hs2
      exact fun a ha b hb => (List.pairwise_append.mp hs2).2.2 a ha b hb
    have hle := hcross q hqtake _ hpd
    rw [hlepdef] at hle
    simp only [decide_eq_true_eq] at hle
    have hq := mem_groupCounts (hgcdef ▸ hmemgc q hqtake)
    rw [← hq1, ← hq.2]
    exact hle
  · intro h1 h2 hsubK hcnt h1m h2m
    have hsubgc : List.Sublist [(h1, keys.count h1), (h2, keys.count h2)] gc := by
      rw [hgcdef]
      unfold groupCounts
      have hm := hsubK.map (fun k => (k, keys.count k))
      simpa using hm
    have hpair : List.Pairwise (fun a b => lep a b = true)
        [(h1, keys.count h1), (h2, keys.count h2)] := by
      apply List.pairwise_pair.mpr
      rw [hlepdef]
      simp [hcnt]
    have hsubs : List.Sublist [(h1, keys.count h1), (h2, keys.count h2)] sorted := by
      rw [hsorteddef]
      exact List.sublist_mergeSort htrans htot hpair hsubgc
    rw [hmah] at h2m
    obtain ⟨q, hqtake, hq1⟩ := List.mem_map.mp h2m
    have hqgc := hmemgc q hqtake
    have hp2gc : (h2, keys.count h2) ∈ gc := hsubgc.subset (by simp)
    have hqe : q = (h2, keys.count h2) :=
      groupCounts_key_inj (hgcdef ▸ hqgc) (hgcdef ▸ hp2gc) (by rw [hq1])
    have hqtake2 : (h2, keys.count h2) ∈ List.take 3 sorted := hqe ▸ hqtake
    have htk := pair_sublist_take hnd hsubs hqtake2
    rw [hmah]
    have hfin := htk.map (fun p : Int × Nat => p.1)
    simpa using hfin

/-- A commit at hour `h` of day zero. -/
def commitAtHour (sha : String) (h : Int) : Commit := ⟨sha, "b", h * usPerHour, "m", 0, 0, 0⟩

/-- The commit stream with hours 5, 7, 7, 5, 3 used by the C8 witness. -/
def commitsHrs : List Commit :=
  [commitAtHour "a" 5, commitAtHour "b" 7, commitAtHour "c" 7,
   commitAtHour "d" 5, commitAtHour "e" 3]

/-- Witness for C8: on hours `5, 7, 7, 5, 3` the selection has three
hours and, counts of 5 and 7 being tied at two, keeps 5 (first
encountered) before 7. -/
theorem c8_witness :
    (calculate_commit_metrics commitsHrs).most_active_hours.length = 3 ∧
    List.Sublist [5, 7] (calculate_commit_metrics commitsHrs).most_active_hours := by
  obtain ⟨hlen, _, _, _, hties⟩ := c8_most_active_hours commitsHrs (by simp [commitsHrs])
  have hm : (calculate_commit_metrics commitsHrs).most_active_hours = [5, 7, 3] := by
    with_unfolding_all rfl
  constructor
  · rw [hlen]
    decide
  · apply hties 5 7 ?_ ?_ ?_ ?_
    · have hFK : firstKeys (commitHours commitsHrs) = [5, 7, 3] := by decide
      rw [hFK]
      exact List.Sublist.cons₂ 5 (List.Sublist.cons₂ 7 (List.nil_sublist [3]))
    · decide
    · rw [hm]
      decide
    · rw [hm]
      decide
